import Mathlib

/-!
Shallow embedding of the ERP-System repository (NestJS/TypeScript) for
verification of its natural-language specification.

Monetary values (`decimal` columns, JS numbers used with exact arithmetic in
the services) are modelled as `ℚ`; stock counts (JS numbers holding integers,
mutated by `+=`/`-=`) as `ℤ`; timestamps as an abstract `Nat` "now" passed in
where the service calls `new Date()`. Repository lookups for entities the
claims presuppose (order, customer) are modelled by passing the entity itself;
gateway calls are modelled by a `GatewayResult` parameter since their outcome
is external input. Fields irrelevant to every claim (order number, addresses,
currency, metadata, gateway response blobs) are omitted.
-/

namespace ERP

/-- Order status enumeration, from src/orders/order.entity.ts. -/
inductive OrderStatus
  | PENDING
  | CONFIRMED
  | SHIPPED
  | DELIVERED
  | CANCELLED
  | REFUNDED
deriving DecidableEq

/-- Payment status enumeration, from payment.entity.ts. -/
inductive PaymentStatus
  | PENDING
  | PROCESSING
  | COMPLETED
  | FAILED
  | CANCELLED
  | REFUNDED
  | PARTIALLY_REFUNDED
deriving DecidableEq

/-- Payment method enumeration, from payment.entity.ts. -/
inductive PaymentMethod
  | STRIPE
  | PAYPAL
  | MAYA
  | CASH
  | BANK_TRANSFER
deriving DecidableEq

/-- Payment row (payment.entity.ts), restricted to the fields the claims
mention: amount, method, status, error message, refund amount and refund
timestamp. -/
structure Payment where
  amount : ℚ
  paymentMethod : PaymentMethod
  status : PaymentStatus
  errorMessage : Option String
  refundAmount : Option ℚ
  refundedAt : Option Nat
deriving DecidableEq

/-- Snapshot of one order line, as built by OrdersService.processOrderItems
(part_007 lines 327-333). -/
structure OrderItem where
  productId : Nat
  productName : String
  quantity : ℤ
  unitPrice : ℚ
  totalPrice : ℚ
deriving DecidableEq

/-- Order row (order.entity.ts), restricted to the fields the claims mention.
`payments` is the order's payment set (the `payments` relation). -/
structure Order where
  status : OrderStatus
  totalAmount : ℚ
  taxAmount : ℚ
  shippingCost : ℚ
  discountAmount : ℚ
  finalAmount : ℚ
  notes : Option String
  cancellationReason : Option String
  deliveredDate : Option Nat
  items : List OrderItem
  payments : List Payment
deriving DecidableEq

/-- Product row (product.entity.ts), restricted to the fields the claims
mention. Stock is an integer: the services mutate it with JS `+=`/`-=`, which
has no floor at zero of its own. -/
structure Product where
  id : Nat
  name : String
  price : ℚ
  stock : ℤ
  isActive : Bool
deriving DecidableEq

/-- Outcome of an external gateway call (the Stripe adapter either returns or
throws with a message). -/
inductive GatewayResult
  | ok
  | err (msg : String)
deriving DecidableEq

/-- Errors thrown by PaymentsService (BadRequestException variants); the
`gateway` case is a re-raised adapter exception. -/
inductive PayError
  | orderNotPayable
  | nonPositiveAmount
  | overpayment
  | underpayment
  | unsupportedMethod
  | gateway (msg : String)
deriving DecidableEq

/-- Errors thrown by PaymentsService.refund. -/
inductive RefundError
  | notRefundable
  | exceedsPayment
  | stripeRefundFailed
deriving DecidableEq

/-- Errors thrown by OrdersService / ProductsService. -/
inductive OrderError
  | productNotFound
  | productInactive
  | insufficientStock
  | invalidTransition
  | orderNotCancellable
deriving DecidableEq

/-- Sum of the amounts of a list of payments whose status is COMPLETED:
payments.service.ts lines 75-77, `order.payments.filter(p => p.status ===
COMPLETED).reduce((sum, p) => sum + p.amount, 0)`. -/
def completedSum : List Payment → ℚ
  | [] => 0
  | p :: ps => (if p.status = PaymentStatus.COMPLETED then p.amount else 0) + completedSum ps

/-- PaymentsService.canOrderBePaid (payments.service.ts lines 451-453):
order status is PENDING or CONFIRMED. -/
def canOrderBePaid (o : Order) : Bool :=
  decide (o.status = OrderStatus.PENDING ∨ o.status = OrderStatus.CONFIRMED)

/-- Validation phase of PaymentsService.create (payments.service.ts lines
64-93), after the order and customer lookups: payability check, positive
amount check, overpayment check against the COMPLETED total, and the
remaining-balance (underpayment) check. -/
def createValidation (o : Order) (amount : ℚ) : Except PayError Unit :=
  if canOrderBePaid o = false then .error .orderNotPayable
  else if amount ≤ 0 then .error .nonPositiveAmount
  else if completedSum o.payments + amount > o.finalAmount then .error .overpayment
  else if amount < o.finalAmount - completedSum o.payments then .error .underpayment
  else .ok ()

/-- PaymentsService.processPayment / processXxxPayment (payments.service.ts
lines 201-342) applied to the freshly saved PENDING payment. Stripe is the
only adapter that actually performs an external call, so only it consumes the
gateway outcome; on failure it records FAILED plus the error message and the
exception propagates (second component `some msg`). PayPal/Maya simulate
success; cash and bank transfer stay PENDING. -/
def dispatchPayment (p : Payment) (gw : GatewayResult) : Payment × Option String :=
  match p.paymentMethod with
  | .STRIPE =>
    match gw with
    | .ok => ({ p with status := PaymentStatus.COMPLETED }, none)
    | .err m => ({ p with status := PaymentStatus.FAILED, errorMessage := some m }, some m)
  | .PAYPAL => ({ p with status := PaymentStatus.COMPLETED }, none)
  | .MAYA => ({ p with status := PaymentStatus.COMPLETED }, none)
  | .CASH => ({ p with status := PaymentStatus.PENDING }, none)
  | .BANK_TRANSFER => ({ p with status := PaymentStatus.PENDING }, none)

/-- PaymentsService.create (payments.service.ts lines 38-122), given the
looked-up order. Returns the order's payment list after the call together
with the call's outcome: on validation failure nothing is persisted; on
success a PENDING payment is persisted and dispatched, and if the gateway
throws, the catch block (lines 113-118) re-saves the payment as FAILED with
the error message and re-raises. -/
def paymentsCreate (o : Order) (amount : ℚ) (method : PaymentMethod) (gw : GatewayResult) :
    List Payment × Except PayError Payment :=
  match createValidation o amount with
  | .error e => (o.payments, .error e)
  | .ok _ =>
    let saved : Payment :=
      { amount := amount, paymentMethod := method, status := PaymentStatus.PENDING,
        errorMessage := none, refundAmount := none, refundedAt := none }
    match dispatchPayment saved gw with
    | (p, none) => (o.payments ++ [p], .ok p)
    | (p, some m) =>
      (o.payments ++ [{ p with status := PaymentStatus.FAILED, errorMessage := some m }],
       .error (.gateway m))

/-- PaymentsService.refund (payments.service.ts lines 347-372). The refund
amount is `amount || payment.amount` — JS falsy-or, so an explicit 0 falls
back to the full payment amount. For Stripe payments the adapter refund call
may throw (modelled by `gw`); all other methods are marked refunded locally. -/
def refund (p : Payment) (amount : Option ℚ) (now : Nat) (gw : GatewayResult) :
    Except RefundError Payment :=
  if p.status ≠ PaymentStatus.COMPLETED then .error .notRefundable
  else
    let refundAmount : ℚ :=
      match amount with
      | some a => if a = 0 then p.amount else a
      | none => p.amount
    if refundAmount > p.amount then .error .exceedsPayment
    else if p.paymentMethod = PaymentMethod.STRIPE then
      match gw with
      | .err _ => .error .stripeRefundFailed
      | .ok =>
        .ok { p with
              status := if refundAmount = p.amount then PaymentStatus.REFUNDED
                        else PaymentStatus.PARTIALLY_REFUNDED,
              refundAmount := some refundAmount, refundedAt := some now }
    else
      .ok { p with
            status := if refundAmount = p.amount then PaymentStatus.REFUNDED
                      else PaymentStatus.PARTIALLY_REFUNDED,
            refundAmount := some refundAmount, refundedAt := some now }

/-- One requested order line, from the create-order DTO. -/
structure OrderItemRequest where
  productId : Nat
  quantity : ℤ
deriving DecidableEq

/-- Aggregated totals, as returned by OrdersService.calculateOrderTotals. -/
structure OrderTotals where
  subtotal : ℚ
  tax : ℚ
  shipping : ℚ
  discount : ℚ
  total : ℚ
deriving DecidableEq

/-- Sum of the `totalPrice` fields, embedding `items.reduce((sum, item) =>
sum + item.totalPrice, 0)` (part_007 line 349). -/
def sumTotalPrice : List OrderItem → ℚ
  | [] => 0
  | i :: is => i.totalPrice + sumTotalPrice is

/-- OrdersService.calculateOrderTotals (part_007 lines 342-357): 10% tax,
free shipping strictly over 100, no discount engine. -/
def calculateOrderTotals (items : List OrderItem) : OrderTotals :=
  let subtotal := sumTotalPrice items
  let tax := subtotal * (1 / 10)
  let shipping : ℚ := if subtotal > 100 then 0 else 10
  let discount : ℚ := 0
  { subtotal := subtotal, tax := tax, shipping := shipping, discount := discount,
    total := subtotal + tax + shipping - discount }

/-- OrdersService.processOrderItems (part_007 lines 297-337): for each item in
order, look the product up, fail if missing, inactive, or short of stock, and
otherwise snapshot the line with `totalPrice = price * quantity`. The loop
throws at the first bad item and performs no writes. -/
def processOrderItems (products : List Product) :
    List OrderItemRequest → Except OrderError (List OrderItem)
  | [] => .ok []
  | item :: rest =>
    match products.find? (fun p => p.id == item.productId) with
    | none => .error .productNotFound
    | some product =>
      if product.isActive = false then .error .productInactive
      else if product.stock < item.quantity then .error .insufficientStock
      else
        match processOrderItems products rest with
        | .error e => .error e
        | .ok tail =>
          .ok ({ productId := product.id, productName := product.name,
                 quantity := item.quantity, unitPrice := product.price,
                 totalPrice := product.price * (item.quantity : ℚ) } :: tail)

/-- Stock decrement performed after the order is saved (part_007 lines 80-82):
`productRepository.decrement({id}, 'stock', quantity)` for each item. -/
def applyDecrements (products : List Product) (items : List OrderItem) : List Product :=
  items.foldl
    (fun ps i =>
      ps.map (fun p => if p.id == i.productId then { p with stock := p.stock - i.quantity } else p))
    products

/-- OrdersService.create (part_007 lines 30-97), given that the customer
lookup succeeds. Returns the product table after the call and the outcome: on
any processOrderItems failure nothing has been written; on success the order
is persisted with the computed totals (status PENDING, no payments yet) and
then each line's stock is decremented. -/
def ordersCreate (products : List Product) (items : List OrderItemRequest)
    (notes : Option String) : List Product × Except OrderError Order :=
  match processOrderItems products items with
  | .error e => (products, .error e)
  | .ok processedItems =>
    let totals := calculateOrderTotals processedItems
    let order : Order :=
      { status := OrderStatus.PENDING,
        totalAmount := totals.subtotal,
        taxAmount := totals.tax,
        shippingCost := totals.shipping,
        discountAmount := totals.discount,
        finalAmount := totals.total,
        notes := notes,
        cancellationReason := none,
        deliveredDate := none,
        items := processedItems,
        payments := [] }
    (applyDecrements products processedItems, .ok order)

/-- OrdersService.isValidStatusTransition transition table (part_007 lines
372-383). -/
def validTransitions : OrderStatus → List OrderStatus
  | .PENDING => [.CONFIRMED, .CANCELLED]
  | .CONFIRMED => [.SHIPPED, .CANCELLED]
  | .SHIPPED => [.DELIVERED]
  | .DELIVERED => [.REFUNDED]
  | .CANCELLED => []
  | .REFUNDED => []

/-- OrdersService.isValidStatusTransition (part_007 lines 372-383). -/
def isValidStatusTransition (current new : OrderStatus) : Bool :=
  decide (new ∈ validTransitions current)

/-- OrdersService.updateStatus (part_007 lines 166-198), given the looked-up
order; `now` stands for `new Date()`. Rejects transitions outside the table
and stamps the delivered date on transition to DELIVERED. -/
def updateStatus (o : Order) (s : OrderStatus) (now : Nat) : Except OrderError Order :=
  if isValidStatusTransition o.status s = false then .error .invalidTransition
  else
    .ok { o with
          status := s
          deliveredDate := if s = OrderStatus.DELIVERED then some now else o.deliveredDate }

/-- OrdersService.cancel (part_007 lines 223-238): only PENDING or CONFIRMED
orders can be cancelled; a truthy reason (a present, non-empty string) is
recorded and appended to the notes, where an absent or empty notes field is
itself falsy. -/
def cancel (o : Order) (reason : Option String) : Except OrderError Order :=
  if ¬ (o.status = OrderStatus.PENDING ∨ o.status = OrderStatus.CONFIRMED) then
    .error .orderNotCancellable
  else
    match reason with
    | none => .ok { o with status := OrderStatus.CANCELLED }
    | some r =>
      if r = "" then .ok { o with status := OrderStatus.CANCELLED }
      else
        .ok { o with
              status := OrderStatus.CANCELLED
              cancellationReason := some r
              notes := some (match o.notes with
                | some n =>
                  if n = "" then "Cancellation reason: " ++ r
                  else n ++ "\n" ++ ("Cancellation reason: " ++ r)
                | none => "Cancellation reason: " ++ r) }

/-- System-level view of OrdersService.cancel: the method touches only the
order repository (part_007 lines 223-238 contain no product access), so the
product table passes through unchanged. -/
def cancelSystem (products : List Product) (o : Order) (reason : Option String) :
    List Product × Except OrderError Order :=
  (products, cancel o reason)

/-- Proposition: a cancel result carries notes that end with the line
"Cancellation reason: r" appended after the previous content. -/
def appendsReason (res : Except OrderError Order) (r : String) : Prop :=
  ∃ pre, res.map Order.notes = .ok (some (pre ++ ("Cancellation reason: " ++ r)))

/-- Direction argument of ProductsService.updateStock. -/
inductive StockDirection
  | add
  | subtract
deriving DecidableEq

/-- One inventory operation against a single product: ProductsService
updateStock / reserveStock / releaseStock. -/
inductive StockOp
  | updateStock (quantity : ℤ) (direction : StockDirection)
  | reserveStock (quantity : ℤ)
  | releaseStock (quantity : ℤ)
deriving DecidableEq

/-- The quantity argument carried by a stock operation. -/
def StockOp.qty : StockOp → ℤ
  | .updateStock q _ => q
  | .reserveStock q => q
  | .releaseStock q => q

/-- One step of the inventory services on a product
(products.service.ts lines 170-210): `updateStock` adds unconditionally or
subtracts behind an InsufficientStock guard; `reserveStock` requires an
active product and sufficient stock; `releaseStock` adds unconditionally.
A thrown guard leaves the row unchanged (the save is never reached). -/
def stockStep (p : Product) : StockOp → Product
  | .updateStock q .add => { p with stock := p.stock + q }
  | .updateStock q .subtract => if p.stock < q then p else { p with stock := p.stock - q }
  | .reserveStock q =>
    if p.isActive = false then p
    else if p.stock < q then p
    else { p with stock := p.stock - q }
  | .releaseStock q => { p with stock := p.stock + q }

/-- One payment-domain operation against a single order: PaymentsService
create, or PaymentsService.refund addressed by position in the order's
payment list. -/
inductive PayOp
  | create (amount : ℚ) (method : PaymentMethod) (gw : GatewayResult)
  | refundAt (idx : Nat) (amount : Option ℚ) (now : Nat) (gw : GatewayResult)

/-- Sequential execution of one payment-domain operation on an order's state.
A thrown validation or refund error leaves the state unchanged; a create that
reaches dispatch persists the dispatched payment (even when the gateway
throws, the catch block persists it as FAILED); a successful refund updates
the addressed payment in place. -/
def payStep (o : Order) : PayOp → Order
  | .create a m gw => { o with payments := (paymentsCreate o a m gw).1 }
  | .refundAt i a now gw =>
    match o.payments.get? i with
    | none => o
    | some p =>
      match refund p a now gw with
      | .error _ => o
      | .ok p' => { o with payments := o.payments.set i p' }

/-! ## Helper lemmas -/

theorem createValidation_ok_iff (o : Order) (a : ℚ) :
    createValidation o a = .ok () ↔
      canOrderBePaid o = true ∧ 0 < a ∧
      completedSum o.payments + a ≤ o.finalAmount ∧
      o.finalAmount - completedSum o.payments ≤ a := by
  unfold createValidation
  split_ifs with hP hA hO hU
  · constructor
    · intro h
      exact absurd h (by simp)
    · rintro ⟨hP', -, -, -⟩
      rw [hP] at hP'
      exact absurd hP' (by simp)
  · constructor
    · intro h
      exact absurd h (by simp)
    · rintro ⟨-, ha, -, -⟩
      exact absurd hA (not_le.mpr ha)
  · constructor
    · intro h
      exact absurd h (by simp)
    · rintro ⟨-, -, hle, -⟩
      exact absurd hle (not_le.mpr hO)
  · constructor
    · intro h
      exact absurd h (by simp)
    · rintro ⟨-, -, -, hge⟩
      exact absurd hge (not_le.mpr hU)
  · have hP' : canOrderBePaid o = true := by
      revert hP
      cases canOrderBePaid o <;> simp
    push_neg at hA hO hU
    exact ⟨fun _ => ⟨hP', hA, hO, hU⟩, fun _ => rfl⟩

/-! ## Claim theorems -/

/-- C1: for a payment-creation request against an order whose status is
PENDING or CONFIRMED, with positive amount, and totalPaid the COMPLETED sum
of the order's payments: the request fails with overpayment when totalPaid +
amount exceeds finalAmount, fails with underpayment when amount is below the
remaining balance, and passes validation (proceeding to persist and dispatch
a payment of that amount) exactly when amount equals the remaining balance. -/
theorem paymentsCreate_exact_balance (o : Order) (amount : ℚ)
    (h1 : o.status = OrderStatus.PENDING ∨ o.status = OrderStatus.CONFIRMED)
    (h2 : 0 < amount) :
    (completedSum o.payments + amount > o.finalAmount →
      createValidation o amount = .error .overpayment) ∧
    (amount < o.finalAmount - completedSum o.payments →
      createValidation o amount = .error .underpayment) ∧
    (createValidation o amount = .ok () ↔
      amount = o.finalAmount - completedSum o.payments) ∧
    (createValidation o amount = .ok () → ∀ method gw, ∃ p,
      (paymentsCreate o amount method gw).1 = o.payments ++ [p] ∧ p.amount = amount) := by
  have hP : canOrderBePaid o = true := by
    unfold canOrderBePaid
    exact decide_eq_true h1
  refine ⟨?_, ?_, ?_, ?_⟩
  · intro hOver
    unfold createValidation
    rw [hP]
    rw [if_neg (by simp), if_neg (by linarith), if_pos hOver]
  · intro hUnder
    unfold createValidation
    rw [hP]
    rw [if_neg (by simp), if_neg (by linarith), if_neg (by linarith), if_pos hUnder]
  · rw [createValidation_ok_iff]
    constructor
    · rintro ⟨-, -, h3, h4⟩
      linarith
    · intro h
      exact ⟨hP, h2, by linarith, by linarith⟩
  · intro hok method gw
    unfold paymentsCreate
    rw [hok]
    cases method <;> cases gw <;> exact ⟨_, rfl, rfl⟩

/-- Witness for C1 at a concrete input: a PENDING order with final amount 5
and no prior payments accepts exactly the amount 5. -/
theorem paymentsCreate_exact_balance_witness :
    createValidation ⟨OrderStatus.PENDING, 0, 0, 0, 0, 5, none, none, none, [], []⟩ 5 =
        .ok () ↔
      (5 : ℚ) =
        (⟨OrderStatus.PENDING, 0, 0, 0, 0, 5, none, none, none, [], []⟩ : Order).finalAmount -
          completedSum
            (⟨OrderStatus.PENDING, 0, 0, 0, 0, 5, none, none, none, [], []⟩ : Order).payments :=
  (paymentsCreate_exact_balance ⟨OrderStatus.PENDING, 0, 0, 0, 0, 5, none, none, none, [], []⟩ 5
    (Or.inl rfl) (by norm_num)).2.2.1

theorem processOrderItems_totalPrice (products : List Product) :
    ∀ (items : List OrderItemRequest) (res : List OrderItem),
      processOrderItems products items = .ok res →
      ∀ i ∈ res, i.totalPrice = i.unitPrice * (i.quantity : ℚ)
  | [], res, h => by
    simp only [processOrderItems, Except.ok.injEq] at h
    subst h
    intro i hi
    exact absurd hi (List.not_mem_nil i)
  | item :: rest, res, h => by
    simp only [processOrderItems] at h
    cases hf : products.find? (fun p => p.id == item.productId) with
    | none => rw [hf] at h; exact absurd h (by simp)
    | some product =>
      rw [hf] at h
      dsimp only at h
      split_ifs at h with h1 h2
      cases hrec : processOrderItems products rest with
      | error e => rw [hrec] at h; exact absurd h (by simp)
      | ok tail =>
        rw [hrec] at h
        dsimp only at h
        simp only [Except.ok.injEq] at h
        subst h
        intro i hi
        cases List.mem_cons.mp hi with
        | inl hhead => subst hhead; rfl
        | inr htail => exact processOrderItems_totalPrice products rest tail hrec i htail

theorem sumTotalPrice_eq_map_sum (items : List OrderItem)
    (h : ∀ i ∈ items, i.totalPrice = i.unitPrice * (i.quantity : ℚ)) :
    sumTotalPrice items = (items.map (fun i => i.unitPrice * (i.quantity : ℚ))).sum := by
  induction items with
  | nil => rfl
  | cons i is ih =>
    simp only [sumTotalPrice, List.map_cons, List.sum_cons]
    rw [h i (List.mem_cons_self i is), ih (fun j hj => h j (List.mem_cons_of_mem i hj))]

/-- C2: every successfully created order has subtotal (persisted as
totalAmount) equal to the sum of unitPrice * quantity over its items, tax
equal to 10% of the subtotal, shipping 0 when the subtotal exceeds 100 and 10
otherwise, zero discount, and finalAmount = subtotal + tax + shipping -
discount. -/
theorem ordersCreate_totals (products : List Product) (items : List OrderItemRequest)
    (notes : Option String) (ps' : List Product) (o : Order)
    (h : ordersCreate products items notes = (ps', .ok o)) :
    o.totalAmount = (o.items.map (fun i => i.unitPrice * (i.quantity : ℚ))).sum ∧
    o.taxAmount = o.totalAmount * (1 / 10) ∧
    o.shippingCost = (if o.totalAmount > 100 then (0 : ℚ) else 10) ∧
    o.discountAmount = 0 ∧
    o.finalAmount = o.totalAmount + o.taxAmount + o.shippingCost - o.discountAmount := by
  unfold ordersCreate at h
  cases hpi : processOrderItems products items with
  | error e => rw [hpi] at h; exact absurd h (by simp)
  | ok processedItems =>
    rw [hpi] at h
    simp only [calculateOrderTotals, Prod.mk.injEq, Except.ok.injEq] at h
    obtain ⟨-, ho⟩ := h
    subst ho
    have hitems := processOrderItems_totalPrice products items processedItems hpi
    refine ⟨?_, rfl, rfl, rfl, by ring⟩
    exact sumTotalPrice_eq_map_sum processedItems hitems

/-- Witness for C2 at a concrete input: one product priced 3 with stock 10,
one requested line of quantity 2; subtotal 6, tax 3/5, shipping 10, final
83/5. -/
theorem ordersCreate_totals_witness :
    (⟨OrderStatus.PENDING, 6, 3 / 5, 10, 0, 83 / 5, none, none, none,
        [⟨1, "A", 2, 3, 6⟩], []⟩ : Order).finalAmount =
      (⟨OrderStatus.PENDING, 6, 3 / 5, 10, 0, 83 / 5, none, none, none,
          [⟨1, "A", 2, 3, 6⟩], []⟩ : Order).totalAmount +
        (⟨OrderStatus.PENDING, 6, 3 / 5, 10, 0, 83 / 5, none, none, none,
            [⟨1, "A", 2, 3, 6⟩], []⟩ : Order).taxAmount +
        (⟨OrderStatus.PENDING, 6, 3 / 5, 10, 0, 83 / 5, none, none, none,
            [⟨1, "A", 2, 3, 6⟩], []⟩ : Order).shippingCost -
        (⟨OrderStatus.PENDING, 6, 3 / 5, 10, 0, 83 / 5, none, none, none,
            [⟨1, "A", 2, 3, 6⟩], []⟩ : Order).discountAmount :=
  (ordersCreate_totals [⟨1, "A", 3, 10, true⟩] [⟨1, 2⟩] none [⟨1, "A", 3, 8, true⟩]
    ⟨OrderStatus.PENDING, 6, 3 / 5, 10, 0, 83 / 5, none, none, none,
      [⟨1, "A", 2, 3, 6⟩], []⟩
    (by norm_num [ordersCreate, processOrderItems, calculateOrderTotals, sumTotalPrice,
      applyDecrements])).2.2.2.2

/-- C3: updateStatus fails with invalidTransition exactly when the target is
outside the transition table PENDING to CONFIRMED or CANCELLED, CONFIRMED to
SHIPPED or CANCELLED, SHIPPED to DELIVERED, DELIVERED to REFUNDED, with
CANCELLED and REFUNDED terminal; PENDING directly to DELIVERED fails; the
chain PENDING, CONFIRMED, SHIPPED, DELIVERED, REFUNDED succeeds end to end;
and on transition to DELIVERED the delivered date is stamped with now. -/
theorem updateStatus_transition_table (o : Order) (s : OrderStatus) (now : Nat) :
    (updateStatus o s now = .error .invalidTransition ↔
      s ∉ (match o.status with
        | .PENDING => [OrderStatus.CONFIRMED, OrderStatus.CANCELLED]
        | .CONFIRMED => [OrderStatus.SHIPPED, OrderStatus.CANCELLED]
        | .SHIPPED => [OrderStatus.DELIVERED]
        | .DELIVERED => [OrderStatus.REFUNDED]
        | .CANCELLED => []
        | .REFUNDED => [])) ∧
    (o.status = OrderStatus.PENDING →
      updateStatus o OrderStatus.DELIVERED now = .error .invalidTransition) ∧
    (o.status = OrderStatus.PENDING → ∃ o1 o2 o3 o4,
      updateStatus o OrderStatus.CONFIRMED now = .ok o1 ∧
      updateStatus o1 OrderStatus.SHIPPED now = .ok o2 ∧
      updateStatus o2 OrderStatus.DELIVERED now = .ok o3 ∧
      updateStatus o3 OrderStatus.REFUNDED now = .ok o4 ∧
      o4.status = OrderStatus.REFUNDED) ∧
    (∀ o', updateStatus o OrderStatus.DELIVERED now = .ok o' →
      o'.deliveredDate = some now) := by
  have htable : (match o.status with
        | .PENDING => [OrderStatus.CONFIRMED, OrderStatus.CANCELLED]
        | .CONFIRMED => [OrderStatus.SHIPPED, OrderStatus.CANCELLED]
        | .SHIPPED => [OrderStatus.DELIVERED]
        | .DELIVERED => [OrderStatus.REFUNDED]
        | .CANCELLED => []
        | .REFUNDED => []) = validTransitions o.status := by
    cases o.status <;> rfl
  refine ⟨?_, ?_, ?_, ?_⟩
  · rw [htable]
    unfold updateStatus isValidStatusTransition
    by_cases hmem : s ∈ validTransitions o.status
    · simp [hmem]
    · simp [hmem]
  · intro h
    simp [updateStatus, isValidStatusTransition, validTransitions, h]
  · intro h
    refine ⟨{ o with status := OrderStatus.CONFIRMED },
      { o with status := OrderStatus.SHIPPED },
      { o with status := OrderStatus.DELIVERED, deliveredDate := some now },
      { o with status := OrderStatus.REFUNDED, deliveredDate := some now },
      ?_, ?_, ?_, ?_, rfl⟩ <;>
      simp [updateStatus, isValidStatusTransition, validTransitions, h]
  · intro o' h
    unfold updateStatus at h
    split_ifs at h with hv hd
    · simp only [Except.ok.injEq] at h
      subst h
      simp
    · exact absurd rfl hd

/-- Witness for C3 at a concrete input: a PENDING order cannot jump directly
to DELIVERED. -/
theorem updateStatus_transition_table_witness :
    updateStatus ⟨OrderStatus.PENDING, 0, 0, 0, 0, 0, none, none, none, [], []⟩
        OrderStatus.DELIVERED 7 = .error .invalidTransition :=
  (updateStatus_transition_table
    ⟨OrderStatus.PENDING, 0, 0, 0, 0, 0, none, none, none, [], []⟩
    OrderStatus.DELIVERED 7).2.1 rfl

theorem processOrderItems_insufficient (products : List Product) :
    ∀ (items : List OrderItemRequest),
      (∀ it ∈ items, ∃ p,
        products.find? (fun q => q.id == it.productId) = some p ∧ p.isActive = true) →
      (∃ it ∈ items, ∀ p,
        products.find? (fun q => q.id == it.productId) = some p → p.stock < it.quantity) →
      processOrderItems products items = .error .insufficientStock
  | [], _, hshort => by
    obtain ⟨it, hit, -⟩ := hshort
    exact absurd hit (List.not_mem_nil it)
  | item :: rest, hfound, hshort => by
    obtain ⟨p, hf, hact⟩ := hfound item (List.mem_cons_self item rest)
    simp only [processOrderItems]
    rw [hf]
    dsimp only
    rw [if_neg (by simp [hact])]
    by_cases hs : p.stock < item.quantity
    · rw [if_pos hs]
    · rw [if_neg hs]
      have hrest : ∃ it ∈ rest, ∀ q,
          products.find? (fun x => x.id == it.productId) = some q → q.stock < it.quantity := by
        obtain ⟨it, hit, hq⟩ := hshort
        cases List.mem_cons.mp hit with
        | inl heq =>
          subst heq
          exact absurd (hq p hf) hs
        | inr htail => exact ⟨it, htail, hq⟩
      rw [processOrderItems_insufficient products rest
        (fun it hit => hfound it (List.mem_cons_of_mem item hit)) hrest]

/-- C6: an order-creation request in which some requested item's quantity
exceeds that product's stock — all requested products existing and active —
fails with insufficientStock, leaves every product's stock unchanged, and
persists no order: the failure is raised inside processOrderItems, before any
stock decrement or order save. -/
theorem ordersCreate_insufficientStock (products : List Product)
    (items : List OrderItemRequest) (notes : Option String)
    (hfound : ∀ it ∈ items, ∃ p,
      products.find? (fun q => q.id == it.productId) = some p ∧ p.isActive = true)
    (hshort : ∃ it ∈ items, ∀ p,
      products.find? (fun q => q.id == it.productId) = some p → p.stock < it.quantity) :
    ordersCreate products items notes = (products, .error .insufficientStock) := by
  unfold ordersCreate
  rw [processOrderItems_insufficient products items hfound hshort]

/-- Witness for C6 at a concrete input: one active product with stock 2,
requested quantity 5. -/
theorem ordersCreate_insufficientStock_witness :
    ordersCreate [⟨1, "A", 3, 2, true⟩] [⟨1, 5⟩] none =
      ([⟨1, "A", 3, 2, true⟩], .error .insufficientStock) :=
  ordersCreate_insufficientStock [⟨1, "A", 3, 2, true⟩] [⟨1, 5⟩] none
    (by
      intro it hit
      simp only [List.mem_singleton] at hit
      subst hit
      exact ⟨⟨1, "A", 3, 2, true⟩, rfl, rfl⟩)
    ⟨⟨1, 5⟩, List.mem_singleton.mpr rfl, by
      intro p hp
      have hp' : p = ⟨1, "A", 3, 2, true⟩ := (Option.some.inj hp).symm
      subst hp'
      decide⟩

/-- C8: cancel fails with orderNotCancellable exactly when the order is
neither PENDING nor CONFIRMED; the product table is untouched in every case
(cancellation performs no stock release); and on success with a present,
non-empty reason the order becomes CANCELLED with the reason recorded and
appended to the notes. -/
theorem cancel_spec (products : List Product) (o : Order) (reason : Option String) :
    ((cancelSystem products o reason).2 = .error .orderNotCancellable ↔
      ¬(o.status = OrderStatus.PENDING ∨ o.status = OrderStatus.CONFIRMED)) ∧
    ((cancelSystem products o reason).1 = products) ∧
    (∀ r, (o.status = OrderStatus.PENDING ∨ o.status = OrderStatus.CONFIRMED) →
      reason = some r → r ≠ "" →
      (cancel o reason).map Order.status = .ok OrderStatus.CANCELLED ∧
      (cancel o reason).map Order.cancellationReason = .ok (some r) ∧
      appendsReason (cancel o reason) r) := by
  refine ⟨?_, rfl, ?_⟩
  · unfold cancelSystem cancel
    split_ifs with hc
    · cases reason with
      | none => simp [hc]
      | some r =>
        by_cases hr : r = ""
        · simp [hr, hc]
        · simp [hr, hc]
    · simp [hc]
  · intro r hs hr hne
    subst hr
    unfold cancel
    rw [if_neg (not_not_intro hs)]
    dsimp only
    rw [if_neg hne]
    refine ⟨rfl, rfl, ?_⟩
    unfold appendsReason
    cases hn : o.notes with
    | none => exact ⟨"", rfl⟩
    | some n =>
      by_cases hne2 : n = ""
      · refine ⟨"", ?_⟩
        simp only [Except.map]
        rw [if_pos hne2]
        rfl
      · refine ⟨n ++ "\n", ?_⟩
        simp only [Except.map]
        rw [if_neg hne2]

/-- Witness for C8 at a concrete input: cancelling a PENDING order with
reason "bad" yields a CANCELLED order with the reason appended to the notes,
leaving the (empty) product table unchanged. -/
theorem cancel_spec_witness :
    (cancel ⟨OrderStatus.PENDING, 0, 0, 0, 0, 0, none, none, none, [], []⟩
        (some "bad")).map Order.status = .ok OrderStatus.CANCELLED ∧
    (cancel ⟨OrderStatus.PENDING, 0, 0, 0, 0, 0, none, none, none, [], []⟩
        (some "bad")).map Order.cancellationReason = .ok (some "bad") ∧
    appendsReason
      (cancel ⟨OrderStatus.PENDING, 0, 0, 0, 0, 0, none, none, none, [], []⟩ (some "bad"))
      "bad" :=
  (cancel_spec [] ⟨OrderStatus.PENDING, 0, 0, 0, 0, 0, none, none, none, [], []⟩
    (some "bad")).2.2 "bad" (Or.inl rfl) rfl (by decide)

/-- Counterexample for C7 as stated: the claim computes the refund amount
with nullish-coalescing semantics (amount gets 0 when an explicit 0 is
passed), predicting PARTIALLY_REFUNDED with recorded refund amount 0 for a
COMPLETED cash payment of 10 refunded with explicit amount 0; the code uses
falsy-or, so it actually records a full refund of 10 with status REFUNDED. -/
theorem refund_nullish_counterexample :
    refund ⟨10, PaymentMethod.CASH, PaymentStatus.COMPLETED, none, none, none⟩
        (some 0) 7 .ok =
      .ok ⟨10, PaymentMethod.CASH, PaymentStatus.REFUNDED, none, some 10, some 7⟩ ∧
    refund ⟨10, PaymentMethod.CASH, PaymentStatus.COMPLETED, none, none, none⟩
        (some 0) 7 .ok ≠
      .ok ⟨10, PaymentMethod.CASH, PaymentStatus.PARTIALLY_REFUNDED, none, some 0, some 7⟩ := by
  constructor <;> simp [refund]

/-- C7 (amended): refund fails with notRefundable unless the payment is
COMPLETED; the refund amount is the requested amount when present and
nonzero, and the full payment amount otherwise (JS falsy-or, not nullish
coalescing); it fails with exceedsPayment when the refund amount exceeds the
payment amount; otherwise — the gateway refund succeeding for Stripe-backed
payments — the status becomes REFUNDED when the refund amount equals the
payment amount and PARTIALLY_REFUNDED when it is smaller, with the refund
amount and timestamp recorded. -/
theorem refund_spec (p : Payment) (amount : Option ℚ) (now : Nat) (gw : GatewayResult)
    (hgw : p.paymentMethod ≠ PaymentMethod.STRIPE ∨ gw = .ok) :
    (p.status ≠ PaymentStatus.COMPLETED → refund p amount now gw = .error .notRefundable) ∧
    (p.status = PaymentStatus.COMPLETED →
      ((match amount with
        | some a => if a = 0 then p.amount else a
        | none => p.amount) > p.amount →
        refund p amount now gw = .error .exceedsPayment) ∧
      ((match amount with
        | some a => if a = 0 then p.amount else a
        | none => p.amount) ≤ p.amount →
        refund p amount now gw =
          .ok { p with
                status := if (match amount with
                    | some a => if a = 0 then p.amount else a
                    | none => p.amount) = p.amount then PaymentStatus.REFUNDED
                  else PaymentStatus.PARTIALLY_REFUNDED
                refundAmount := some (match amount with
                  | some a => if a = 0 then p.amount else a
                  | none => p.amount)
                refundedAt := some now })) := by
  constructor
  · intro hne
    unfold refund
    rw [if_pos hne]
  · intro hc
    constructor
    · intro hgt
      unfold refund
      rw [if_neg (by simp [hc])]
      dsimp only
      rw [if_pos hgt]
    · intro hle
      unfold refund
      rw [if_neg (by simp [hc])]
      dsimp only
      rw [if_neg (not_lt.mpr hle)]
      by_cases hstripe : p.paymentMethod = PaymentMethod.STRIPE
      · cases hgw with
        | inl hne => exact absurd hstripe hne
        | inr hok =>
          subst hok
          rw [if_pos hstripe]
      · rw [if_neg hstripe]

/-- Witness for C7 (amended) at a concrete input: refunding 4 of a COMPLETED
cash payment of 10 gives PARTIALLY_REFUNDED with refund amount 4. -/
theorem refund_spec_witness :
    refund ⟨10, PaymentMethod.CASH, PaymentStatus.COMPLETED, none, none, none⟩
        (some 4) 7 .ok =
      .ok { (⟨10, PaymentMethod.CASH, PaymentStatus.COMPLETED, none, none, none⟩ : Payment) with
            status := if (match (some (4 : ℚ)) with
                | some a => if a = 0 then (10 : ℚ) else a
                | none => (10 : ℚ)) = (10 : ℚ) then PaymentStatus.REFUNDED
              else PaymentStatus.PARTIALLY_REFUNDED
            refundAmount := some (match (some (4 : ℚ)) with
              | some a => if a = 0 then (10 : ℚ) else a
              | none => (10 : ℚ))
            refundedAt := some 7 } :=
  ((refund_spec ⟨10, PaymentMethod.CASH, PaymentStatus.COMPLETED, none, none, none⟩
      (some 4) 7 .ok (Or.inl (by decide))).2 rfl).2 (by norm_num)

/-- C10: refunding a COMPLETED payment with an explicit amount of 0 does not
refund zero: the falsy-or fallback treats 0 as absent, so the full payment
amount is refunded and the status becomes REFUNDED with refundAmount equal to
the full amount (shown here whenever the gateway does not fail, which covers
all non-Stripe methods and successful Stripe refunds). -/
theorem refund_zero_refunds_full (p : Payment) (now : Nat) (gw : GatewayResult)
    (hc : p.status = PaymentStatus.COMPLETED)
    (hgw : p.paymentMethod ≠ PaymentMethod.STRIPE ∨ gw = .ok) :
    refund p (some 0) now gw =
      .ok { p with
            status := PaymentStatus.REFUNDED
            refundAmount := some p.amount
            refundedAt := some now } := by
  unfold refund
  rw [if_neg (by simp [hc])]
  dsimp only
  rw [if_pos rfl]
  rw [if_neg (lt_irrefl p.amount)]
  by_cases hstripe : p.paymentMethod = PaymentMethod.STRIPE
  · cases hgw with
    | inl hne => exact absurd hstripe hne
    | inr hok =>
      subst hok
      rw [if_pos hstripe, if_pos rfl]
  · rw [if_neg hstripe, if_pos rfl]

/-- Witness for C10 at a concrete input: a COMPLETED PayPal payment of 25
refunded with explicit amount 0 ends REFUNDED with refundAmount 25. -/
theorem refund_zero_refunds_full_witness :
    refund ⟨25, PaymentMethod.PAYPAL, PaymentStatus.COMPLETED, none, none, none⟩
        (some 0) 3 .ok =
      .ok { (⟨25, PaymentMethod.PAYPAL, PaymentStatus.COMPLETED, none, none, none⟩ : Payment) with
            status := PaymentStatus.REFUNDED
            refundAmount := some (25 : ℚ)
            refundedAt := some 3 } :=
  refund_zero_refunds_full
    ⟨25, PaymentMethod.PAYPAL, PaymentStatus.COMPLETED, none, none, none⟩ 3 .ok rfl
    (Or.inl (by decide))

/-- C9: when payment creation passes validation with method Stripe and the
gateway adapter throws with message m, the persisted payment row ends FAILED
with m recorded as its error message, and the exception is re-raised to the
caller as the operation's result. -/
theorem paymentsCreate_gateway_failure (o : Order) (amount : ℚ) (m : String)
    (hv : createValidation o amount = .ok ()) :
    paymentsCreate o amount PaymentMethod.STRIPE (.err m) =
      (o.payments ++
        [{ amount := amount, paymentMethod := PaymentMethod.STRIPE,
           status := PaymentStatus.FAILED, errorMessage := some m,
           refundAmount := none, refundedAt := none }],
       .error (.gateway m)) := by
  unfold paymentsCreate
  rw [hv]
  rfl

/-- Witness for C9 at a concrete input: a PENDING order with final amount 5,
a Stripe payment of 5 whose gateway call throws "boom". -/
theorem paymentsCreate_gateway_failure_witness :
    paymentsCreate ⟨OrderStatus.PENDING, 0, 0, 0, 0, 5, none, none, none, [], []⟩ 5
        PaymentMethod.STRIPE (.err "boom") =
      ([{ amount := 5, paymentMethod := PaymentMethod.STRIPE,
          status := PaymentStatus.FAILED, errorMessage := some "boom",
          refundAmount := none, refundedAt := none }],
       .error (.gateway "boom")) :=
  paymentsCreate_gateway_failure
    ⟨OrderStatus.PENDING, 0, 0, 0, 0, 5, none, none, none, [], []⟩ 5 "boom"
    (by norm_num [createValidation, canOrderBePaid, completedSum])

theorem stockStep_nonneg (p : Product) (op : StockOp)
    (h0 : 0 ≤ p.stock) (hq : 0 ≤ op.qty) : 0 ≤ (stockStep p op).stock := by
  cases op with
  | updateStock q dir =>
    simp only [StockOp.qty] at hq
    cases dir with
    | add =>
      simp only [stockStep]
      omega
    | subtract =>
      simp only [stockStep]
      split_ifs with hlt
      · exact h0
      · simp only
        omega
  | reserveStock q =>
    simp only [StockOp.qty] at hq
    simp only [stockStep]
    split_ifs with hact hlt
    · exact h0
    · exact h0
    · simp only
      omega
  | releaseStock q =>
    simp only [StockOp.qty] at hq
    simp only [stockStep]
    omega

/-- Counterexample for C5 as stated: the services take signed quantities with
no sign validation, so from stock 0 a single updateStock call with quantity
-1 and operation add drives the stock to -1. -/
theorem stock_nonneg_counterexample :
    (0 : ℤ) ≤ (⟨1, "w", 1, 0, true⟩ : Product).stock ∧
    (stockStep ⟨1, "w", 1, 0, true⟩ (.updateStock (-1) .add)).stock < 0 := by
  constructor
  · decide
  · decide

/-- C5 (amended): for every product with non-negative stock, and every
sequence of reserveStock, releaseStock and updateStock operations whose
quantities are all non-negative, the stock stays non-negative after each
operation (as stated — over arbitrary signed quantities — the invariant
fails: see the counterexample, where updateStock-add with quantity -1 drives
stock below zero). -/
theorem stock_nonneg_sequence (p : Product) (ops : List StockOp)
    (h0 : 0 ≤ p.stock) (hq : ∀ op ∈ ops, 0 ≤ op.qty) :
    0 ≤ (ops.foldl stockStep p).stock := by
  induction ops generalizing p with
  | nil => exact h0
  | cons op rest ih =>
    simp only [List.foldl_cons]
    exact ih (stockStep p op)
      (stockStep_nonneg p op h0 (hq op (List.mem_cons_self op rest)))
      (fun o ho => hq o (List.mem_cons_of_mem op ho))

/-- Witness for C5 (amended) at a concrete input: stock 4 survives a mixed
sequence of add, reserve, release and guarded subtract operations. -/
theorem stock_nonneg_sequence_witness :
    (0 : ℤ) ≤
      (([StockOp.updateStock 5 .add, StockOp.reserveStock 3, StockOp.releaseStock 1,
          StockOp.updateStock 10 .subtract].foldl stockStep
        ⟨1, "w", 1, 4, true⟩)).stock :=
  stock_nonneg_sequence ⟨1, "w", 1, 4, true⟩
    [StockOp.updateStock 5 .add, StockOp.reserveStock 3, StockOp.releaseStock 1,
      StockOp.updateStock 10 .subtract]
    (by decide) (by decide)

theorem completedSum_append (ps : List Payment) (p : Payment) :
    completedSum (ps ++ [p]) =
      completedSum ps + (if p.status = PaymentStatus.COMPLETED then p.amount else 0) := by
  induction ps with
  | nil => simp [completedSum]
  | cons q qs ih =>
    simp only [List.cons_append, completedSum, List.append_eq]
    rw [ih]
    ring

theorem completedSum_set (ps : List Payment) (i : Nat) (p p' : Payment)
    (hget : ps.get? i = some p)
    (hc : p.status = PaymentStatus.COMPLETED)
    (hc' : p'.status ≠ PaymentStatus.COMPLETED) :
    completedSum (ps.set i p') = completedSum ps - p.amount := by
  induction ps generalizing i with
  | nil => exact absurd hget (by simp)
  | cons q qs ih =>
    cases i with
    | zero =>
      have hq : q = p := Option.some.inj hget
      subst hq
      simp only [List.set, completedSum, hc, if_pos, if_neg hc']
      ring
    | succ n =>
      have hget' : qs.get? n = some p := hget
      simp only [List.set, completedSum, ih n hget']
      ring

theorem refund_ok_shape (p : Payment) (amount : Option ℚ) (now : Nat) (gw : GatewayResult)
    (p' : Payment) (h : refund p amount now gw = .ok p') :
    p.status = PaymentStatus.COMPLETED ∧ p'.status ≠ PaymentStatus.COMPLETED ∧
    p'.amount = p.amount := by
  unfold refund at h
  by_cases hs : p.status ≠ PaymentStatus.COMPLETED
  · rw [if_pos hs] at h
    exact absurd h (by simp)
  · rw [if_neg hs] at h
    dsimp only at h
    refine ⟨not_not.mp hs, ?_⟩
    split_ifs at h
    all_goals first
      | exact Except.noConfusion h
      | (obtain rfl := Except.ok.inj h
         exact ⟨by simp, rfl⟩)
      | (cases gw with
          | err m => exact Except.noConfusion h
          | ok =>
            obtain rfl := Except.ok.inj h
            exact ⟨by simp, rfl⟩)

theorem createValidation_ok_bounds (o : Order) (a : ℚ)
    (h : createValidation o a = .ok ()) :
    0 < a ∧ completedSum o.payments + a ≤ o.finalAmount := by
  rw [createValidation_ok_iff] at h
  exact ⟨h.2.1, h.2.2.1⟩

theorem paymentsCreate_payments_shape (o : Order) (a : ℚ) (m : PaymentMethod)
    (gw : GatewayResult) :
    (paymentsCreate o a m gw).1 = o.payments ∨
    ∃ p, (paymentsCreate o a m gw).1 = o.payments ++ [p] ∧ p.amount = a ∧
      createValidation o a = .ok () := by
  unfold paymentsCreate
  cases hv : createValidation o a with
  | error e => left; rfl
  | ok u =>
    right
    cases u
    cases m <;> cases gw <;> exact ⟨_, rfl, rfl, rfl⟩

theorem payStep_invariant (o : Order) (op : PayOp)
    (h1 : completedSum o.payments ≤ o.finalAmount)
    (h2 : ∀ p ∈ o.payments, 0 ≤ p.amount) :
    completedSum (payStep o op).payments ≤ (payStep o op).finalAmount ∧
    (payStep o op).finalAmount = o.finalAmount ∧
    ∀ p ∈ (payStep o op).payments, 0 ≤ p.amount := by
  cases op with
  | create a m gw =>
    rcases paymentsCreate_payments_shape o a m gw with hsame | ⟨p, happ, hamt, hv⟩
    · simp only [payStep, hsame]
      exact ⟨h1, trivial, h2⟩
    · obtain ⟨hpos, hle⟩ := createValidation_ok_bounds o a hv
      simp only [payStep, happ]
      refine ⟨?_, trivial, ?_⟩
      · rw [completedSum_append]
        split_ifs with hstat
        · rw [hamt]
          linarith
        · linarith
      · intro q hq
        rcases List.mem_append.mp hq with hmem | hmem
        · exact h2 q hmem
        · rw [List.mem_singleton] at hmem
          subst hmem
          rw [hamt]
          linarith
  | refundAt i a now gw =>
    simp only [payStep]
    cases hget : o.payments.get? i with
    | none => exact ⟨h1, rfl, h2⟩
    | some p =>
      dsimp only
      cases hr : refund p a now gw with
      | error e => exact ⟨h1, rfl, h2⟩
      | ok p' =>
        dsimp only
        obtain ⟨hc, hc', hamt⟩ := refund_ok_shape p a now gw p' hr
        have hmem : p ∈ o.payments := List.get?_mem hget
        refine ⟨?_, rfl, ?_⟩
        · rw [completedSum_set o.payments i p p' hget hc hc']
          have hp := h2 p hmem
          linarith
        · intro q hq
          rcases List.mem_or_eq_of_mem_set hq with hmem' | heq
          · exact h2 q hmem'
          · subst heq
            rw [hamt]
            exact h2 p hmem

/-- Counterexample for C4 as stated: the claim quantifies over every state
satisfying the sum invariant, which admits a COMPLETED payment with negative
amount — final amount 10 with COMPLETED payments of 12 and -2 sums to 10 —
and a single refund of the -2 payment removes it from the COMPLETED set,
raising the COMPLETED sum to 12, above the final amount of 10. -/
theorem completed_payments_invariant_counterexample :
    completedSum (⟨OrderStatus.CONFIRMED, 0, 0, 0, 0, 10, none, none, none, [],
        [⟨12, PaymentMethod.CASH, PaymentStatus.COMPLETED, none, none, none⟩,
         ⟨-2, PaymentMethod.CASH, PaymentStatus.COMPLETED, none, none, none⟩]⟩ :
          Order).payments ≤
      (⟨OrderStatus.CONFIRMED, 0, 0, 0, 0, 10, none, none, none, [],
        [⟨12, PaymentMethod.CASH, PaymentStatus.COMPLETED, none, none, none⟩,
         ⟨-2, PaymentMethod.CASH, PaymentStatus.COMPLETED, none, none, none⟩]⟩ :
          Order).finalAmount ∧
    ¬ completedSum
        (payStep
          ⟨OrderStatus.CONFIRMED, 0, 0, 0, 0, 10, none, none, none, [],
            [⟨12, PaymentMethod.CASH, PaymentStatus.COMPLETED, none, none, none⟩,
             ⟨-2, PaymentMethod.CASH, PaymentStatus.COMPLETED, none, none, none⟩]⟩
          (.refundAt 1 none 0 .ok)).payments ≤
      (payStep
          ⟨OrderStatus.CONFIRMED, 0, 0, 0, 0, 10, none, none, none, [],
            [⟨12, PaymentMethod.CASH, PaymentStatus.COMPLETED, none, none, none⟩,
             ⟨-2, PaymentMethod.CASH, PaymentStatus.COMPLETED, none, none, none⟩]⟩
          (.refundAt 1 none 0 .ok)).finalAmount := by
  constructor
  · norm_num [completedSum]
  · norm_num [payStep, refund, completedSum]
    rw [if_neg (show PaymentStatus.REFUNDED ≠ PaymentStatus.COMPLETED by simp)]
    norm_num

/-- C4 (amended): for every order and every sequence of payment-creation and
refund operations executed sequentially from a state in which the sum of
COMPLETED payment amounts does not exceed finalAmount and every payment's
amount is non-negative (as holds for every payment the service itself
creates, since creation rejects non-positive amounts), the sum of COMPLETED
payment amounts never exceeds finalAmount. -/
theorem completed_payments_invariant (o : Order) (ops : List PayOp)
    (h1 : completedSum o.payments ≤ o.finalAmount)
    (h2 : ∀ p ∈ o.payments, 0 ≤ p.amount) :
    completedSum (ops.foldl payStep o).payments ≤ (ops.foldl payStep o).finalAmount := by
  induction ops generalizing o with
  | nil => exact h1
  | cons op rest ih =>
    simp only [List.foldl_cons]
    obtain ⟨ha, -, hb⟩ := payStep_invariant o op h1 h2
    exact ih (payStep o op) ha hb

/-- Witness for C4 (amended) at a concrete input: from an empty payment set
with final amount 10, a successful PayPal payment of 10 followed by a full
refund keeps the COMPLETED sum within the final amount. -/
theorem completed_payments_invariant_witness :
    completedSum
        (([PayOp.create 10 PaymentMethod.PAYPAL .ok, PayOp.refundAt 0 none 0 .ok].foldl
          payStep ⟨OrderStatus.PENDING, 0, 0, 0, 0, 10, none, none, none, [], []⟩).payments) ≤
      (([PayOp.create 10 PaymentMethod.PAYPAL .ok, PayOp.refundAt 0 none 0 .ok].foldl
          payStep ⟨OrderStatus.PENDING, 0, 0, 0, 0, 10, none, none, none, [], []⟩).finalAmount) :=
  completed_payments_invariant ⟨OrderStatus.PENDING, 0, 0, 0, 0, 10, none, none, none, [], []⟩
    [PayOp.create 10 PaymentMethod.PAYPAL .ok, PayOp.refundAt 0 none 0 .ok]
    (by norm_num [completedSum]) (by simp)

end ERP
